import Mathlib

/-!
Shallow embedding of the tabular join-and-load pipeline of this repository
(scripts/import_payroll.py, scripts/import_fy2025_payroll.py,
scripts/import_budgets.py), with theorems settling the frozen claims.

Python cell values are modelled as a tagged variant; Python floats are
modelled exactly, as a signed decimal `m * 10^(-e)` plus the special
values inf, -inf, nan (the scripts only parse, compare and print decimal
values, they never do float arithmetic, so no binary rounding semantics
are needed).  Python exceptions are modelled with `Except`: each primitive
that can raise returns `Except PyErr _`, and the scripts' `try/except`
clauses are translated to explicit matches on the error value, so an
exception that the source does not catch surfaces as an `Except.error`
result of the embedded function.
-/

namespace PayrollPipeline

/-- An exact decimal number `num * 10^(-exp10)`.  All constructors in this
development normalize (strip factors of ten), so structural equality
coincides with numeric equality. -/
structure Dec where
  num : ℤ
  exp10 : Nat
deriving DecidableEq

/-- Strip common factors of ten from a decimal representation; recursion is
on the exponent, so this is structurally total. -/
def normDecAux : ℤ → Nat → Dec
  | n, 0 => ⟨n, 0⟩
  | n, e + 1 => if n % 10 == 0 then normDecAux (n / 10) e else ⟨n, e + 1⟩

/-- Normalized decimal from a numerator and a power-of-ten exponent. -/
def mkDec (n : ℤ) (e : Nat) : Dec := normDecAux n e

/-- The rational value of a decimal representation (specification-side
only; execution paths stay on `Dec`). -/
def Dec.toRat (d : Dec) : ℚ := (d.num : ℚ) / (10 : ℚ) ^ d.exp10

/-- Truncation toward zero, as Python `int()` does on a float. -/
def decTrunc (d : Dec) : ℤ :=
  let a : Nat := d.num.natAbs / 10 ^ d.exp10
  if 0 ≤ d.num then (a : ℤ) else -(a : ℤ)

/-- Model of a Python float value: an exact decimal, or one of the special
values `inf`, `-inf`, `nan`. -/
inductive PyFloat where
  | finite (d : Dec)
  | inf
  | ninf
  | nan
deriving DecidableEq

/-- Model of a Python cell value as found in a spreadsheet row: `none` is
Python `None`, `other` stands for any object that is neither `None` nor an
`int`/`float`/`str` (e.g. a datetime). -/
inductive Value where
  | none
  | int (n : ℤ)
  | float (f : PyFloat)
  | str (s : String)
  | other
deriving DecidableEq

/-- The Python exception classes relevant to the scripts. -/
inductive PyErr where
  | valueError
  | typeError
  | overflowError
deriving DecidableEq

instance {ε α : Type} [DecidableEq ε] [DecidableEq α] : DecidableEq (Except ε α) :=
  fun a b =>
    match a, b with
    | .ok x, .ok y => decidable_of_iff (x = y) (by simp)
    | .ok _, .error _ => isFalse (by simp)
    | .error _, .ok _ => isFalse (by simp)
    | .error e, .error f => decidable_of_iff (e = f) (by simp)

/-- Python whitespace characters stripped by `str.strip()` (ASCII subset). -/
def isPyWs (c : Char) : Bool :=
  c == ' ' || c == '\t' || c == '\n' || c == '\r' || c == '\x0b' || c == '\x0c'

/-- Model of Python `str.strip()`. -/
def pyStrip (s : String) : String :=
  String.mk (((s.toList.dropWhile isPyWs).reverse.dropWhile isPyWs).reverse)

/-- Numeric value of a list of decimal digit characters. -/
def digitsVal (cs : List Char) : Nat :=
  cs.foldl (fun a c => a * 10 + (c.toNat - 48)) 0

/-- Mantissa-and-exponent tail of the Python `float()` grammar: given the
sign, integer part and fraction digits, parses an optional exponent from
`rest` and builds the value. -/
def pyFloatParseExp (sign : ℤ) (ip : Nat) (fpart : List Char) (rest : List Char) :
    Except PyErr PyFloat :=
  let num : ℤ := sign * ((ip * 10 ^ fpart.length + digitsVal fpart : Nat) : ℤ)
  match rest with
  | [] => .ok (.finite (mkDec num fpart.length))
  | c :: rest2 =>
    if c == 'e' || c == 'E' then
      let (esign, rest3) : ℤ × List Char :=
        match rest2 with
        | '+' :: r => (1, r)
        | '-' :: r => (-1, r)
        | r => (1, r)
      let edigits := rest3.takeWhile Char.isDigit
      let rest4 := rest3.dropWhile Char.isDigit
      if edigits.isEmpty || !rest4.isEmpty then .error .valueError
      else
        let shift : ℤ := esign * (digitsVal edigits : ℤ) - (fpart.length : ℤ)
        if 0 ≤ shift then .ok (.finite (mkDec (num * 10 ^ shift.toNat) 0))
        else .ok (.finite (mkDec num (-shift).toNat))
    else .error .valueError

/-- Model of the Python builtin `float(s)` on a string: strips whitespace,
takes an optional sign, then either `inf`/`infinity`/`nan`
(case-insensitively) or a decimal literal with optional fraction and
exponent.  Digit-group underscores (Python 3.6 `1_000`) are not modelled.
Unparsable input is a `ValueError`. -/
def pyFloatOfString (s : String) : Except PyErr PyFloat :=
  let cs := (pyStrip s).toList
  let (sign, cs) : ℤ × List Char :=
    match cs with
    | '+' :: rest => (1, rest)
    | '-' :: rest => (-1, rest)
    | rest => (1, rest)
  let lower := cs.map Char.toLower
  if lower == "inf".toList || lower == "infinity".toList then
    .ok (if sign == 1 then .inf else .ninf)
  else if lower == "nan".toList then .ok .nan
  else
    let ipart := cs.takeWhile Char.isDigit
    let rest := cs.dropWhile Char.isDigit
    match rest with
    | '.' :: rest2 =>
      let fpart := rest2.takeWhile Char.isDigit
      let rest3 := rest2.dropWhile Char.isDigit
      if ipart.isEmpty && fpart.isEmpty then .error .valueError
      else pyFloatParseExp sign (digitsVal ipart) fpart rest3
    | _ =>
      if ipart.isEmpty then .error .valueError
      else pyFloatParseExp sign (digitsVal ipart) [] rest

/-- Model of the Python builtin `int()` on a float: truncates a finite
value toward zero, raises `OverflowError` on infinities and `ValueError`
on nan. -/
def pyIntOfFloat : PyFloat → Except PyErr ℤ
  | .finite d => .ok (decTrunc d)
  | .inf => .error .overflowError
  | .ninf => .error .overflowError
  | .nan => .error .valueError

/-- Truthiness of a Python float: only zero is falsy. -/
def pyFloatTruthy : PyFloat → Bool
  | .finite d => d.num != 0
  | _ => true

/-- Decimal rendering of a normalized `Dec`, as Python `str()` prints a
float (scientific notation for very large or very small magnitudes is not
modelled; the scripts only print moderate values). -/
def decRepr (d : Dec) : String :=
  if d.exp10 == 0 then toString d.num ++ ".0"
  else
    let ds := (toString d.num.natAbs).toList
    let ds := if ds.length ≤ d.exp10 then List.replicate (d.exp10 + 1 - ds.length) '0' ++ ds else ds
    String.mk ((if d.num < 0 then ['-'] else []) ++
      ds.take (ds.length - d.exp10) ++ '.' :: ds.drop (ds.length - d.exp10))

/-- Model of Python `str()` on a float value. -/
def pyStrOfFloat : PyFloat → String
  | .finite d => decRepr d
  | .inf => "inf"
  | .ninf => "-inf"
  | .nan => "nan"

/-- scripts/import_payroll.py `parse_integer`: parse a cell value to an
optional integer.  The source wraps the conversions in
`try/except (ValueError, TypeError)`; other exception classes (notably the
`OverflowError` from `int(float("inf"))`) are not caught and surface as
`Except.error`. -/
def parse_integer : Value → Except PyErr (Option ℤ)
  | .none => .ok Option.none
  | .int n => .ok (some n)
  | .float f =>
    match pyIntOfFloat f with
    | .ok n => .ok (some n)
    | .error e =>
      if e == .valueError || e == .typeError then .ok Option.none else .error e
  | .str s =>
    let v := pyStrip s
    if v == "" || v == "-" then .ok Option.none
    else
      match pyFloatOfString v >>= pyIntOfFloat with
      | .ok n => .ok (some n)
      | .error e =>
        if e == .valueError || e == .typeError then .ok Option.none else .error e
  | .other => .ok Option.none

/-- scripts/import_payroll.py `parse_float`: parse a cell value to an
optional float; blank and dash strings and unparsable strings give `None`. -/
def parse_float : Value → Except PyErr (Option PyFloat)
  | .none => .ok Option.none
  | .int n => .ok (some (.finite (mkDec n 0)))
  | .float f => .ok (some f)
  | .str s =>
    let v := pyStrip s
    if v == "" || v == "-" then .ok Option.none
    else
      match pyFloatOfString v with
      | .ok f => .ok (some f)
      | .error e =>
        if e == .valueError || e == .typeError then .ok Option.none else .error e
  | .other => .ok Option.none

/-- scripts/import_payroll.py `parse_text`: numeric values render through
`str(value).strip()` when truthy and become `None` when falsy (zero);
strings are trimmed, with blank and `"-"` becoming `None`. -/
def parse_text : Value → Option String
  | .none => Option.none
  | .int n => if n = 0 then Option.none else some (pyStrip (toString n))
  | .float f => if pyFloatTruthy f then some (pyStrip (pyStrOfFloat f)) else Option.none
  | .str s =>
    let v := pyStrip s
    if v != "" && v != "-" then some v else Option.none
  | .other => Option.none

/-- scripts/import_payroll.py `parse_last_hire_date`: numeric values go
through `str(int(value))` with no `try` around the conversion, so inf and
nan floats raise; strings are trimmed, blank and `"-"` give `None`,
numeric-looking strings are canonicalized via `str(int(float(v)))` inside
a `try/except (ValueError, TypeError)`, and strings that fail to parse are
returned verbatim. -/
def parse_last_hire_date : Value → Except PyErr (Option String)
  | .none => .ok Option.none
  | .int n => .ok (some (toString n))
  | .float f =>
    match pyIntOfFloat f with
    | .ok n => .ok (some (toString n))
    | .error e => .error e
  | .str s =>
    let v := pyStrip s
    if v == "-" || v == "" then .ok Option.none
    else
      match pyFloatOfString v >>= pyIntOfFloat with
      | .ok n => .ok (some (toString n))
      | .error e =>
        if e == .valueError || e == .typeError then
          .ok (if v != "" then some v else Option.none)
        else .error e
  | .other => .ok Option.none

/-- Python `x or 0.0` applied to an optional float, as in the wage fields
of `parse_earnings_row`: `None` and falsy (zero) floats become `0.0`. -/
def orZeroFloat : Option PyFloat → PyFloat
  | Option.none => .finite (mkDec 0 0)
  | some f => if pyFloatTruthy f then f else .finite (mkDec 0 0)

/-- The wage-field normalization of scripts/import_payroll.py: the inline
expression `parse_float(data.get(...)) or 0.0` used for the four wage
fields in `parse_earnings_row` (lines 203-206). -/
def normalize_decimal_wage (v : Value) : Except PyErr PyFloat := do
  let r ← parse_float v
  return orZeroFloat r

/-- scripts/import_budgets.py `parse_decimal`: blank input gives `0.0`,
otherwise the value is stripped, commas (thousands separators) are removed
by `.replace(",", "")`, and an unparsable result gives `0.0`. -/
def parse_decimal (value : String) : PyFloat :=
  if value == "" || pyStrip value == "" then .finite (mkDec 0 0)
  else
    let cleaned := String.mk ((pyStrip value).toList.filter (fun c => c != ','))
    match pyFloatOfString cleaned with
    | .ok f => f
    | .error _ => .finite (mkDec 0 0)

/-! ### Python dict model

Python dicts preserve insertion order; assigning to an existing key
replaces the value in place, assigning a new key appends.  The scripts
only build dicts through assignment starting from `{}`, so keys are
unique. -/

/-- Lookup in an association-list dict (first matching key). -/
def dictGet {V : Type} : List (String × V) → String → Option V
  | [], _ => Option.none
  | p :: rest, k => if p.1 = k then some p.2 else dictGet rest k

/-- Assignment `d[k] = v` on an association-list dict: replace in place,
or append when the key is new. -/
def dictSet {V : Type} : List (String × V) → String → V → List (String × V)
  | [], k, v => [(k, v)]
  | p :: rest, k, v => if p.1 = k then (k, v) :: rest else p :: dictSet rest k v

/-- A parsed row record: canonical field name to cell value. -/
abbrev PyDict := List (String × Value)

/-- Python `data.get(key)` on a row dict: missing keys give `None`. -/
def pyGet (d : PyDict) (k : String) : Value := (dictGet d k).getD .none

/-- The header-indexed row dict built at the top of `parse_hr_row` and
`parse_earnings_row`: `data[header] = row[i] if i < len(row) else None`. -/
def buildRowDict (row : List Value) (headers : List String) : PyDict :=
  ((List.range headers.length).zip headers).foldl
    (fun d p => dictSet d p.2 (row.getD p.1 .none)) []

/-- Truthiness of the optional string returned by `parse_text`, as tested
by `if not temporary_id`. -/
def pyTruthyOptStr : Option String → Bool
  | Option.none => false
  | some s => s != ""

/-- Wrap an optional integer back into a cell value. -/
def optIntV : Option ℤ → Value
  | Option.none => .none
  | some n => .int n

/-- Wrap an optional string back into a cell value. -/
def optStrV : Option String → Value
  | Option.none => .none
  | some s => .str s

/-- Wrap an optional float back into a cell value. -/
def optFloatV : Option PyFloat → Value
  | Option.none => .none
  | some f => .float f

/-- Body of scripts/import_payroll.py `parse_hr_row` before its
`except Exception` handler: builds the header dict, drops the row when
`TEMPORARY_ID` does not normalize to a truthy string, and otherwise
normalizes every target field in source order. -/
def parse_hr_row_core (row : List Value) (headers : List String)
    (active_col_name : Option String) : Except PyErr (Option PyDict) := do
  let data := buildRowDict row headers
  let temporary_id := parse_text (pyGet data "TEMPORARY_ID")
  if !pyTruthyOptStr temporary_id then
    return Option.none
  let record_nbr ← parse_integer (pyGet data "RECORD_NBR")
  let original_hire_date ← parse_integer (pyGet data "ORIGINAL_HIRE_DATE")
  let last_hire_date ← parse_last_hire_date (pyGet data "LAST_HIRE_DATE")
  let job_entry_date ← parse_integer (pyGet data "JOB_ENTRY_DATE")
  let salary_grade_range ← parse_integer (pyGet data "SALARY_GRADE_RANGE")
  let max_salary_step ← parse_integer (pyGet data "MAX_SALARY_STEP")
  let compensation_rate ← parse_float (pyGet data "COMPENSATION_RATE")
  let position_fte ← parse_float (pyGet data "POSITION_FTE")
  let bargaining_unit_nbr ← parse_integer (pyGet data "BARGAINING_UNIT_NBR")
  return some [
    ("temporary_id", optStrV temporary_id),
    ("record_nbr", optIntV record_nbr),
    ("employee_name", optStrV (parse_text (pyGet data "EMPLOYEE_NAME"))),
    ("agency_nbr", optStrV (parse_text (pyGet data "AGENCY_NBR"))),
    ("agency_name", optStrV (parse_text (pyGet data "AGENCY_NAME"))),
    ("department_nbr", optStrV (parse_text (pyGet data "DEPARTMENT_NBR"))),
    ("department_name", optStrV (parse_text (pyGet data "DEPARTMENT_NAME"))),
    ("branch_code", optStrV (parse_text (pyGet data "BRANCH_CODE"))),
    ("branch_name", optStrV (parse_text (pyGet data "BRANCH_NAME"))),
    ("job_code", optStrV (parse_text (pyGet data "JOB_CODE"))),
    ("job_title", optStrV (parse_text (pyGet data "JOB_TITLE"))),
    ("location_nbr", optStrV (parse_text (pyGet data "LOCATION_NBR"))),
    ("location_name", optStrV (parse_text (pyGet data "LOCATION_NAME"))),
    ("location_county_name", optStrV (parse_text (pyGet data "LOCATION_COUNTY_NAME"))),
    ("reg_temp_code", optStrV (parse_text (pyGet data "REG_TEMP_CODE"))),
    ("reg_temp_desc", optStrV (parse_text (pyGet data "REG_TEMP_DESC"))),
    ("classified_code", optStrV (parse_text (pyGet data "CLASSIFIED_CODE"))),
    ("classified_desc", optStrV (parse_text (pyGet data "CLASSIFIED_DESC"))),
    ("original_hire_date", optIntV original_hire_date),
    ("last_hire_date", optStrV last_hire_date),
    ("job_entry_date", optIntV job_entry_date),
    ("full_part_time_code", optStrV (parse_text (pyGet data "FULL_PART_TIME_CODE"))),
    ("full_part_time_desc", optStrV (parse_text (pyGet data "FULL_PART_TIME_DESC"))),
    ("salary_plan_grid", optStrV (parse_text (pyGet data "SALARY_PLAN_GRID"))),
    ("salary_grade_range", optIntV salary_grade_range),
    ("max_salary_step", optIntV max_salary_step),
    ("compensation_rate", optFloatV compensation_rate),
    ("comp_frequency_code", optStrV (parse_text (pyGet data "COMP_FREQUENCY_CODE"))),
    ("comp_frequency_desc", optStrV (parse_text (pyGet data "COMP_FREQUENCY_DESC"))),
    ("position_fte", optFloatV position_fte),
    ("bargaining_unit_nbr", optIntV bargaining_unit_nbr),
    ("bargaining_unit_name", optStrV (parse_text (pyGet data "BARGAINING_UNIT_NAME"))),
    ("active_on_june_30",
      match active_col_name with
      | some c => optStrV (parse_text (pyGet data c))
      | Option.none => .none)]

/-- scripts/import_payroll.py `parse_hr_row`: the `except Exception`
handler turns any exception from the body into a dropped row. -/
def parse_hr_row (row : List Value) (headers : List String)
    (active_col_name : Option String) : Option PyDict :=
  match parse_hr_row_core row headers active_col_name with
  | .ok r => r
  | .error _ => Option.none

/-- Body of scripts/import_payroll.py `parse_earnings_row` before its
`except Exception` handler: the four wage fields use
`parse_float(...) or 0.0`. -/
def parse_earnings_row_core (row : List Value) (headers : List String) :
    Except PyErr (Option PyDict) := do
  let data := buildRowDict row headers
  let temporary_id := parse_text (pyGet data "TEMPORARY_ID")
  if !pyTruthyOptStr temporary_id then
    return Option.none
  let regular_wages ← parse_float (pyGet data "REGULAR_WAGES")
  let overtime_wages ← parse_float (pyGet data "OVERTIME_WAGES")
  let other_wages ← parse_float (pyGet data "OTHER_WAGES")
  let total_wages ← parse_float (pyGet data "TOTAL_WAGES")
  return some [
    ("temporary_id", optStrV temporary_id),
    ("regular_wages", .float (orZeroFloat regular_wages)),
    ("overtime_wages", .float (orZeroFloat overtime_wages)),
    ("other_wages", .float (orZeroFloat other_wages)),
    ("total_wages", .float (orZeroFloat total_wages))]

/-- scripts/import_payroll.py `parse_earnings_row` with its
`except Exception` handler. -/
def parse_earnings_row (row : List Value) (headers : List String) : Option PyDict :=
  match parse_earnings_row_core row headers with
  | .ok r => r
  | .error _ => Option.none

/-- The step body shared by the two lookup-building loops in
`import_payroll_file`: `if parsed and parsed["temporary_id"]:
lookup[parsed["temporary_id"]] = parsed`. -/
def lookupStep (acc : List (String × PyDict)) (parsed : Option PyDict) :
    List (String × PyDict) :=
  match parsed with
  | some p =>
    match pyGet p "temporary_id" with
    | .str tid => if tid ≠ "" then dictSet acc tid p else acc
    | _ => acc
  | Option.none => acc

/-- scripts/import_payroll.py lines 240-243: the `hr_data` dict built by
scanning the HR INFO rows. -/
def buildHRData (rows : List (List Value)) (headers : List String)
    (active_col_name : Option String) : List (String × PyDict) :=
  rows.foldl (fun acc row => lookupStep acc (parse_hr_row row headers active_col_name)) []

/-- scripts/import_payroll.py lines 250-254: the `earnings_data` dict
built by scanning the EARNINGS rows; assignment on an existing
`temporary_id` overwrites the earlier record. -/
def buildEarningsData (rows : List (List Value)) (headers : List String) :
    List (String × PyDict) :=
  rows.foldl (fun acc row => lookupStep acc (parse_earnings_row row headers)) []

/-- scripts/import_payroll.py lines 258-269: the join of `hr_data` and
`earnings_data`.  Each HR entry is copied and updated with the fiscal year
string and the four wage fields, read from the earnings lookup entry with
a `0.0` default. -/
def joinRecords (hr_data earnings_data : List (String × PyDict)) (fiscal_year : ℤ) :
    List PyDict :=
  hr_data.map (fun p =>
    let earnings_record := (dictGet earnings_data p.1).getD []
    let combined := p.2
    let combined := dictSet combined "fiscal_year" (.str (toString fiscal_year))
    let combined := dictSet combined "regular_wages"
      ((dictGet earnings_record "regular_wages").getD (.float (.finite (mkDec 0 0))))
    let combined := dictSet combined "overtime_wages"
      ((dictGet earnings_record "overtime_wages").getD (.float (.finite (mkDec 0 0))))
    let combined := dictSet combined "other_wages"
      ((dictGet earnings_record "other_wages").getD (.float (.finite (mkDec 0 0))))
    dictSet combined "total_wages"
      ((dictGet earnings_record "total_wages").getD (.float (.finite (mkDec 0 0)))))

/-! ### Schema resolution -/

/-- Whether `needle` is a prefix of `hay` (character lists). -/
def chListPre : List Char → List Char → Bool
  | [], _ => true
  | _ :: _, [] => false
  | a :: as, b :: bs => a == b && chListPre as bs

/-- Whether `needle` occurs as a contiguous sublist of `hay`; model of the
Python substring test `needle in hay`. -/
def chListSub (needle : List Char) : List Char → Bool
  | [] => chListPre needle []
  | b :: bs => chListPre needle (b :: bs) || chListSub needle bs

/-- Python `needle in hay` on strings. -/
def pyInStr (needle hay : String) : Bool := chListSub needle.toList hay.toList

/-- Python `s.lower()` (ASCII case folding; the sheet names involved are
ASCII). -/
def pyLower (s : String) : String := String.mk (s.toList.map Char.toLower)

/-- scripts/import_payroll.py `find_sheet_by_pattern`: first sheet name
containing `pattern`, compared case-insensitively via
`pattern.lower() in sheet_name.lower()`. -/
def find_sheet_by_pattern (sheetnames : List String) (pattern : String) : Option String :=
  sheetnames.find? (fun sheet_name => pyInStr (pyLower pattern) (pyLower sheet_name))

/-- scripts/import_fy2025_payroll.py lines 38-39: the inline resolver
`next((s for s in xl.sheet_names if pattern in s), None)`, which compares
case-sensitively. -/
def fy2025_find_sheet (sheetnames : List String) (pattern : String) : Option String :=
  sheetnames.find? (fun s => pyInStr pattern s)

/-! ### The fy2025 pandas-based detail handling -/

/-- One step of the deduplication scan: a row is kept (appended) only if
no already-kept row has the same value in `col`. -/
def ddfStep (col : String) (acc : List PyDict) (r : PyDict) : List PyDict :=
  if acc.any (fun x => pyGet x col == pyGet r col) then acc else acc ++ [r]

/-- Modelled from pandas: `df.drop_duplicates(subset=[col], keep="first")`
keeps, in order, only the first row for each value of `col`
(scripts/import_fy2025_payroll.py line 48). -/
def drop_duplicates_first (rows : List PyDict) (col : String) : List PyDict :=
  rows.foldl (ddfStep col) []

/-- Modelled from pandas: `hr.merge(earn, on=key, how="left")` — every
left row is kept in order; each matching right row produces one output row
whose right columns (other than the key) are copied in, and a left row
with no match gets nulls (NaN) in the right columns
(scripts/import_fy2025_payroll.py line 51). -/
def pd_merge_left (hr earn : List PyDict) (key : String) (earnCols : List String) :
    List PyDict :=
  hr.flatMap (fun h =>
    let ms := earn.filter (fun e => pyGet e key == pyGet h key)
    if ms.isEmpty then
      [earnCols.foldl (fun acc c => if c = key then acc else dictSet acc c .none) h]
    else
      ms.map (fun e =>
        earnCols.foldl (fun acc c => if c = key then acc else dictSet acc c (pyGet e c)) h))

/-- scripts/import_fy2025_payroll.py lines 48-51: earnings are deduplicated
keeping the first row per `TEMPORARY_ID`, then left-merged onto the HR
rows on `TEMPORARY_ID`. -/
def fy2025_join (hr earn : List PyDict) (earnCols : List String) : List PyDict :=
  pd_merge_left hr (drop_duplicates_first earn "TEMPORARY_ID") "TEMPORARY_ID" earnCols

/-! ### Batching -/

/-- Python `range(start, stop, step)` for a positive step. -/
def pyRange (start stop step : Nat) : List Nat :=
  (List.range ((stop - start + step - 1) / step)).map (fun k => start + k * step)

/-- The batch slices `records[i : i + B]` for `i in range(0, len(records), B)`,
as taken by the loops in scripts/import_payroll.py line 278,
scripts/import_budgets.py line 119 and scripts/import_fy2025_payroll.py
line 186. -/
def batches {α : Type} (records : List α) (B : Nat) : List (List α) :=
  (pyRange 0 records.length B).map (fun i => (records.drop i).take B)

/-- Proof-side chunking recursion equivalent to `batches` for positive
batch size. -/
def chunks {α : Type} (B : Nat) : List α → List (List α)
  | [] => []
  | x :: xs => (x :: xs.take (B - 1)) :: chunks B (xs.drop (B - 1))
  termination_by l => l.length
  decreasing_by simp; omega

/-! ### Batch loading -/

/-- Outcome of one store call (`.execute()` on an insert or upsert):
`ok d` is a successful call whose `result.data` is truthy with length `n`
when `d = some n` and falsy (`None` or empty) when `d = none`; `fail` is a
raised exception. -/
inductive StoreOutcome where
  | ok (d : Option Nat)
  | fail
deriving DecidableEq

/-- scripts/import_payroll.py lines 276-289: one plain insert per batch;
a successful call adds `len(result.data) if result.data else len(batch)`
to the inserted count, a failed call adds the batch length to `skipped`
and the loop continues.  `ins` gives the store outcome for each batch
index.  Returns `(total_inserted, skipped)`. -/
def import_payroll_batches {α : Type} (records : List α) (B : Nat)
    (ins : Nat → StoreOutcome) : Nat × Nat :=
  ((List.range (batches records B).length).zip (batches records B)).foldl
    (fun acc ib =>
      match ins ib.1 with
      | .ok d => (acc.1 + d.getD ib.2.length, acc.2)
      | .fail => (acc.1, acc.2 + ib.2.length))
    (0, 0)

/-- scripts/import_budgets.py lines 119-140: per batch, an upsert is tried
first (`result.data` length counted, `0` when falsy); on upsert failure a
single fallback plain insert is tried (`len(result.data) if result.data
else len(batch)` counted); if that also fails the exception is re-raised,
aborting the loop.  `up` and `ins` give the store outcomes per batch
index. -/
def import_budgets_batches {α : Type} (records : List α) (B : Nat)
    (up ins : Nat → StoreOutcome) : Except Unit Nat :=
  ((List.range (batches records B).length).zip (batches records B)).foldlM
    (fun total ib =>
      match up ib.1 with
      | .ok d => .ok (total + d.getD 0)
      | .fail =>
        match ins ib.1 with
        | .ok d => .ok (total + d.getD ib.2.length)
        | .fail => .error ())
    0

/-- scripts/import_budgets.py `import_budget_file` around its batch loop:
the re-raised batch exception is caught by the file-level
`except Exception`, which returns `(0, skipped)`; otherwise the
accumulated total is returned. -/
def import_budget_file_result {α : Type} (records : List α) (skipped : Nat) (B : Nat)
    (up ins : Nat → StoreOutcome) : Nat × Nat :=
  match import_budgets_batches records B up ins with
  | .ok total => (total, skipped)
  | .error _ => (0, skipped)

/-! ### Entry characterizations of the lookup-building loops -/

/-- The `(key, record)` pair that a parsed row contributes to a lookup
dict, if any: the row must have parsed and its `temporary_id` must be a
truthy string. -/
def entryOf : Option PyDict → Option (String × PyDict)
  | some p =>
    match pyGet p "temporary_id" with
    | .str tid => if tid ≠ "" then some (tid, p) else Option.none
    | _ => Option.none
  | Option.none => Option.none

/-- The keyed HR records contributed to `hr_data`, in row order. -/
def hrEntries (rows : List (List Value)) (headers : List String)
    (active_col_name : Option String) : List (String × PyDict) :=
  rows.filterMap (fun row => entryOf (parse_hr_row row headers active_col_name))

/-- The keyed earnings records contributed to `earnings_data`, in row
order. -/
def earnEntries (rows : List (List Value)) (headers : List String) :
    List (String × PyDict) :=
  rows.filterMap (fun row => entryOf (parse_earnings_row row headers))

/-- Number of roster rows that parse and carry a non-null, non-empty
Identifier — the count `len([r for r in R if r.identifier not in
(null, "")])` from the claim, taken over rows that `parse_hr_row`
accepts. -/
def rosterValidCount (rows : List (List Value)) (headers : List String)
    (active_col_name : Option String) : Nat :=
  (hrEntries rows headers active_col_name).length

/-- Fold a list of keyed entries into a dict by repeated assignment. -/
def dictOfEntriesAux (acc : List (String × PyDict)) (entries : List (String × PyDict)) :
    List (String × PyDict) :=
  entries.foldl (fun a e => dictSet a e.1 e.2) acc

/-- The key list of a dict. -/
def dictKeys {V : Type} (d : List (String × V)) : List String := d.map Prod.fst

/-! ### Dict lemmas -/

theorem dictGet_dictSet_self {V : Type} (d : List (String × V)) (k : String) (v : V) :
    dictGet (dictSet d k v) k = some v := by
  induction d with
  | nil => simp [dictSet, dictGet]
  | cons p rest ih =>
    by_cases h : p.1 = k
    · simp [dictSet, dictGet, h]
    · simp [dictSet, dictGet, h, ih]

theorem dictGet_dictSet_ne {V : Type} (d : List (String × V)) (k k2 : String) (v : V)
    (h : k2 ≠ k) : dictGet (dictSet d k2 v) k = dictGet d k := by
  induction d with
  | nil => simp [dictSet, dictGet, h]
  | cons p rest ih =>
    by_cases hp : p.1 = k2
    · simp [dictSet, dictGet, hp, h]
    · simp only [dictSet, if_neg hp, dictGet]
      rw [ih]

theorem mem_dictKeys_dictSet {V : Type} (d : List (String × V)) (k a : String) (v : V) :
    a ∈ dictKeys (dictSet d k v) ↔ a ∈ dictKeys d ∨ a = k := by
  induction d with
  | nil => simp [dictSet, dictKeys]
  | cons p rest ih =>
    by_cases hp : p.1 = k
    · subst hp
      simp [dictSet, dictKeys]
      tauto
    · simp only [dictSet, if_neg hp, dictKeys, List.map_cons, List.mem_cons]
      simp only [dictKeys] at ih
      rw [ih]
      tauto

theorem nodup_dictKeys_dictSet {V : Type} (d : List (String × V)) (k : String) (v : V)
    (h : (dictKeys d).Nodup) : (dictKeys (dictSet d k v)).Nodup := by
  induction d with
  | nil => simp [dictSet, dictKeys]
  | cons p rest ih =>
    by_cases hp : p.1 = k
    · subst hp
      simpa [dictSet, dictKeys] using h
    · simp only [dictKeys, List.map_cons, List.nodup_cons] at h
      have hmem : p.1 ∉ dictKeys (dictSet rest k v) := by
        rw [mem_dictKeys_dictSet]
        rintro (hc | hc)
        · exact h.1 hc
        · exact hp hc
      simp only [dictSet, if_neg hp, dictKeys, List.map_cons, List.nodup_cons]
      exact ⟨hmem, ih h.2⟩

/-! ### find? and getLast? helpers -/

theorem find?_eq_head?_filter {α : Type} (p : α → Bool) (l : List α) :
    l.find? p = (l.filter p).head? := by
  induction l with
  | nil => rfl
  | cons a rest ih =>
    by_cases h : p a
    · simp [List.find?, List.filter, h]
    · simp only [List.find?, List.filter, h]
      simpa [h] using ih

theorem find?_append_cases {α : Type} (p : α → Bool) (l1 l2 : List α) :
    List.find? p (l1 ++ l2) =
      match List.find? p l1 with
      | some a => some a
      | Option.none => List.find? p l2 := by
  induction l1 with
  | nil => rfl
  | cons a rest ih =>
    by_cases h : p a
    · simp [List.find?, h]
    · simp only [List.cons_append, List.find?, h]
      exact ih

theorem getLast?_cons_getD {α : Type} (a : α) (l : List α) :
    (a :: l).getLast? = some (l.getLast?.getD a) := by
  induction l generalizing a with
  | nil => rfl
  | cons b t ih =>
    rw [List.getLast?_cons_cons, ih b]
    simp

/-! ### The lookup-building folds as entry folds -/

theorem lookupStep_eq_entryOf (acc : List (String × PyDict)) (parsed : Option PyDict) :
    lookupStep acc parsed =
      match entryOf parsed with
      | some e => dictSet acc e.1 e.2
      | Option.none => acc := by
  cases parsed with
  | none => rfl
  | some p =>
    simp only [lookupStep, entryOf]
    cases pyGet p "temporary_id" with
    | str tid =>
      by_cases h : tid ≠ "" <;> simp [h]
    | none => rfl
    | int n => rfl
    | float f => rfl
    | other => rfl

theorem lookup_fold_eq_entries (g : List Value → Option PyDict) :
    ∀ (rows : List (List Value)) (acc : List (String × PyDict)),
      rows.foldl (fun acc row => lookupStep acc (g row)) acc =
        dictOfEntriesAux acc (rows.filterMap (fun row => entryOf (g row))) := by
  intro rows
  induction rows with
  | nil => intro acc; rfl
  | cons r rest ih =>
    intro acc
    simp only [List.foldl_cons, List.filterMap_cons]
    rw [lookupStep_eq_entryOf]
    cases h : entryOf (g r) with
    | none => exact ih acc
    | some e =>
      simp only [dictOfEntriesAux, List.foldl_cons]
      exact ih (dictSet acc e.1 e.2)

theorem buildHRData_eq_entries (rows : List (List Value)) (headers : List String)
    (active_col_name : Option String) :
    buildHRData rows headers active_col_name =
      dictOfEntriesAux [] (hrEntries rows headers active_col_name) :=
  lookup_fold_eq_entries (fun row => parse_hr_row row headers active_col_name) rows []

theorem buildEarningsData_eq_entries (rows : List (List Value)) (headers : List String) :
    buildEarningsData rows headers = dictOfEntriesAux [] (earnEntries rows headers) :=
  lookup_fold_eq_entries (fun row => parse_earnings_row row headers) rows []

/-- Looking a key up in the entry-fold dict yields the value of the last
entry with that key, or falls back to the accumulator. -/
theorem dictGet_dictOfEntriesAux (k : String) :
    ∀ (entries : List (String × PyDict)) (acc : List (String × PyDict)),
      dictGet (dictOfEntriesAux acc entries) k =
        match (entries.filter (fun e => e.1 == k)).getLast? with
        | some e => some e.2
        | Option.none => dictGet acc k := by
  intro entries
  induction entries with
  | nil => intro acc; rfl
  | cons e rest ih =>
    intro acc
    have hfold : dictOfEntriesAux acc (e :: rest) = dictOfEntriesAux (dictSet acc e.1 e.2) rest := rfl
    rw [hfold, ih]
    by_cases he : e.1 = k
    · have hfil : (e :: rest).filter (fun x => x.1 == k) = e :: rest.filter (fun x => x.1 == k) := by
        simp [List.filter_cons, he]
      rw [hfil, getLast?_cons_getD]
      cases hl : (rest.filter (fun x => x.1 == k)).getLast? with
      | some x => rfl
      | none =>
        simp only [Option.getD_none]
        show dictGet (dictSet acc e.1 e.2) k = some e.2
        rw [← he]
        exact dictGet_dictSet_self acc e.1 e.2
    · have hfil : (e :: rest).filter (fun x => x.1 == k) = rest.filter (fun x => x.1 == k) := by
        simp [List.filter_cons, he]
      rw [hfil]
      cases hl : (rest.filter (fun x => x.1 == k)).getLast? with
      | some x => rfl
      | none =>
        show dictGet (dictSet acc e.1 e.2) k = dictGet acc k
        exact dictGet_dictSet_ne acc k e.1 e.2 he

theorem mem_dictKeys_dictOfEntriesAux (a : String) :
    ∀ (entries : List (String × PyDict)) (acc : List (String × PyDict)),
      a ∈ dictKeys (dictOfEntriesAux acc entries) ↔
        a ∈ dictKeys acc ∨ a ∈ entries.map Prod.fst := by
  intro entries
  induction entries with
  | nil => intro acc; simp [dictOfEntriesAux]
  | cons e rest ih =>
    intro acc
    simp only [dictOfEntriesAux, List.foldl_cons, List.map_cons, List.mem_cons]
    rw [show (rest.foldl (fun a e => dictSet a e.1 e.2) (dictSet acc e.1 e.2)) =
          dictOfEntriesAux (dictSet acc e.1 e.2) rest from rfl, ih,
        mem_dictKeys_dictSet]
    tauto

theorem nodup_dictKeys_dictOfEntriesAux :
    ∀ (entries : List (String × PyDict)) (acc : List (String × PyDict)),
      (dictKeys acc).Nodup → (dictKeys (dictOfEntriesAux acc entries)).Nodup := by
  intro entries
  induction entries with
  | nil => intro acc h; exact h
  | cons e rest ih =>
    intro acc h
    simp only [dictOfEntriesAux, List.foldl_cons]
    exact ih (dictSet acc e.1 e.2) (nodup_dictKeys_dictSet acc e.1 e.2 h)

/-! ### Chunking lemmas -/

theorem chunks_nil {α : Type} (B : Nat) : chunks (α := α) B [] = [] := by
  simp [chunks]

theorem chunks_cons {α : Type} (B : Nat) (x : α) (xs : List α) :
    chunks B (x :: xs) = (x :: xs.take (B - 1)) :: chunks B (xs.drop (B - 1)) := by
  simp [chunks]

theorem chunks_flatten {α : Type} {B : Nat} :
    ∀ (n : Nat) (l : List α), l.length ≤ n → (chunks B l).flatten = l := by
  intro n
  induction n with
  | zero =>
    intro l h
    cases l with
    | nil => simp [chunks_nil]
    | cons x xs => simp at h
  | succ n ih =>
    intro l h
    cases l with
    | nil => simp [chunks_nil]
    | cons x xs =>
      rw [chunks_cons]
      simp only [List.flatten_cons, List.cons_append]
      simp only [List.length_cons] at h
      rw [ih (xs.drop (B - 1)) (by simp only [List.length_drop]; omega)]
      simp [List.take_append_drop]

theorem chunks_length {α : Type} {B : Nat} (hB : 0 < B) :
    ∀ (n : Nat) (l : List α), l.length ≤ n →
      (chunks B l).length = (l.length + B - 1) / B := by
  intro n
  induction n with
  | zero =>
    intro l h
    cases l with
    | nil =>
      simp only [chunks_nil, List.length_nil, Nat.zero_add]
      rw [Nat.div_eq_of_lt (by omega)]
    | cons x xs => simp at h
  | succ n ih =>
    intro l h
    cases l with
    | nil =>
      simp only [chunks_nil, List.length_nil, Nat.zero_add]
      rw [Nat.div_eq_of_lt (by omega)]
    | cons x xs =>
      rw [chunks_cons]
      simp only [List.length_cons] at h
      simp only [List.length_cons]
      rw [ih (xs.drop (B - 1)) (by simp only [List.length_drop]; omega)]
      simp only [List.length_drop]
      rcases le_or_lt (B - 1) xs.length with hc | hc
      · have h1 : xs.length - (B - 1) + B - 1 = xs.length := by omega
        have h2 : xs.length + 1 + B - 1 = xs.length + B := by omega
        rw [h1, h2, Nat.add_div_right _ hB]
      · have h1 : xs.length - (B - 1) + B - 1 = B - 1 := by omega
        have h2 : xs.length + 1 + B - 1 = xs.length + B := by omega
        rw [h1, h2, Nat.add_div_right _ hB]
        rw [Nat.div_eq_of_lt (by omega), Nat.div_eq_of_lt (by omega)]

theorem chunks_mem_length_le {α : Type} {B : Nat} (hB : 0 < B) :
    ∀ (n : Nat) (l : List α) (b : List α), l.length ≤ n → b ∈ chunks B l →
      b.length ≤ B := by
  intro n
  induction n with
  | zero =>
    intro l b h hb
    cases l with
    | nil => simp [chunks_nil] at hb
    | cons x xs => simp at h
  | succ n ih =>
    intro l b h hb
    cases l with
    | nil => simp [chunks_nil] at hb
    | cons x xs =>
      rw [chunks_cons] at hb
      rcases List.mem_cons.mp hb with hb | hb
      · subst hb
        simp only [List.length_cons]
        have := List.length_take_le (B - 1) xs
        omega
      · simp only [List.length_cons] at h
        exact ih (xs.drop (B - 1)) b (by simp only [List.length_drop]; omega) hb

theorem batches_eq_idx {α : Type} (l : List α) (B : Nat) :
    batches l B =
      (List.range ((l.length + B - 1) / B)).map (fun k => (l.drop (k * B)).take B) := by
  simp [batches, pyRange, List.map_map, Function.comp]

theorem batches_eq_chunks {α : Type} {B : Nat} (hB : 0 < B) :
    ∀ (n : Nat) (l : List α), l.length ≤ n → batches l B = chunks B l := by
  intro n
  induction n with
  | zero =>
    intro l h
    cases l with
    | nil =>
      rw [batches_eq_idx, chunks_nil]
      simp only [List.length_nil, Nat.zero_add]
      rw [Nat.div_eq_of_lt (by omega)]
      simp
    | cons x xs => simp at h
  | succ n ih =>
    intro l h
    cases l with
    | nil =>
      rw [batches_eq_idx, chunks_nil]
      simp only [List.length_nil, Nat.zero_add]
      rw [Nat.div_eq_of_lt (by omega)]
      simp
    | cons x xs =>
      rw [batches_eq_idx, chunks_cons]
      have hcount : (x :: xs).length + B - 1 = xs.length + B := by
        simp only [List.length_cons]; omega
      rw [hcount, Nat.add_div_right _ hB, List.range_succ_eq_map]
      simp only [List.map_cons, List.map_map]
      simp only [List.length_cons] at h
      congr 1
      · -- head batch: records[0 : B] = x :: take (B-1) xs
        show ((x :: xs).drop (0 * B)).take B = x :: xs.take (B - 1)
        simp only [Nat.zero_mul, List.drop_zero]
        have hB1 : B = (B - 1) + 1 := by omega
        rw [hB1, List.take_succ_cons]
        simp
      · -- tail batches over the dropped remainder
        rw [← ih (xs.drop (B - 1)) (by simp only [List.length_drop]; omega), batches_eq_idx]
        have hlen : ((xs.drop (B - 1)).length + B - 1) / B = xs.length / B := by
          simp only [List.length_drop]
          rcases le_or_lt (B - 1) xs.length with hc | hc
          · have h1 : xs.length - (B - 1) + B - 1 = xs.length := by omega
            rw [h1]
          · have h1 : xs.length - (B - 1) + B - 1 = B - 1 := by omega
            rw [h1, Nat.div_eq_of_lt (by omega), Nat.div_eq_of_lt (by omega)]
        rw [hlen]
        apply List.map_congr_left
        intro k hk
        show ((x :: xs).drop (Nat.succ k * B)).take B = ((xs.drop (B - 1)).drop (k * B)).take B
        have hsucc : Nat.succ k * B = (k * B) + B := Nat.succ_mul k B
        rw [hsucc]
        have hB1 : (k * B) + B = (k * B) + ((B - 1) + 1) := by omega
        rw [hB1, ← Nat.add_assoc]
        rw [show (x :: xs).drop (k * B + (B - 1) + 1) = xs.drop (k * B + (B - 1)) from rfl]
        rw [Nat.add_comm (k * B) (B - 1), ← List.drop_drop]

/-! ### drop_duplicates lemmas -/

theorem ddf_find?_stable (col : String) (p : PyDict → Bool) :
    ∀ (rows : List PyDict) (acc : List PyDict) (a : PyDict),
      List.find? p acc = some a →
      List.find? p (rows.foldl (ddfStep col) acc) = some a := by
  intro rows
  induction rows with
  | nil => intro acc a h; exact h
  | cons r rest ih =>
    intro acc a h
    simp only [List.foldl_cons]
    by_cases hs : acc.any (fun x => pyGet x col == pyGet r col)
    · rw [ddfStep, if_pos hs]
      exact ih acc a h
    · rw [ddfStep, if_neg hs]
      apply ih
      rw [find?_append_cases, h]

theorem ddf_find? (col : String) (k : Value) :
    ∀ (rows : List PyDict) (acc : List PyDict),
      List.find? (fun x => pyGet x col == k) acc = Option.none →
      List.find? (fun x => pyGet x col == k) (rows.foldl (ddfStep col) acc) =
        List.find? (fun x => pyGet x col == k) rows := by
  intro rows
  induction rows with
  | nil => intro acc h; simpa using h
  | cons r rest ih =>
    intro acc h
    simp only [List.foldl_cons]
    by_cases hr : (pyGet r col == k) = true
    · have hrk : pyGet r col = k := by simpa using hr
      by_cases hs : acc.any (fun x => pyGet x col == pyGet r col)
      · exfalso
        rcases List.any_eq_true.mp hs with ⟨x, hx, hxk⟩
        have : (fun x => pyGet x col == k) x = true := by
          simp only [hrk] at hxk
          exact hxk
        have := List.find?_eq_none.mp h x hx
        simp_all
      · rw [ddfStep, if_neg hs]
        have hfirst : List.find? (fun x => pyGet x col == k) (acc ++ [r]) = some r := by
          rw [find?_append_cases, h]
          simp [List.find?, hr]
        rw [ddf_find?_stable col _ rest (acc ++ [r]) r hfirst]
        simp [List.find?, hr]
    · have hrb : (pyGet r col == k) = false := by simpa using hr
      by_cases hs : acc.any (fun x => pyGet x col == pyGet r col)
      · rw [ddfStep, if_pos hs, ih acc h]
        simp [List.find?, hrb]
      · rw [ddfStep, if_neg hs]
        have hnone : List.find? (fun x => pyGet x col == k) (acc ++ [r]) = Option.none := by
          rw [find?_append_cases, h]
          simp [List.find?, hrb]
        rw [ih (acc ++ [r]) hnone]
        simp [List.find?, hrb]

theorem drop_duplicates_first_find? (rows : List PyDict) (col : String) (k : Value) :
    List.find? (fun x => pyGet x col == k) (drop_duplicates_first rows col) =
      List.find? (fun x => pyGet x col == k) rows := by
  rw [drop_duplicates_first]
  exact ddf_find? col k rows [] rfl

/-! ### Remaining support definitions -/

/-- Whether an `Except` result is a success. -/
def isOkE {ε α : Type} : Except ε α → Bool
  | .ok _ => true
  | .error _ => false

/-- Projection of the REGULAR_WAGES cell of a combined row. -/
def wageOf (r : PyDict) : Value := pyGet r "REGULAR_WAGES"

/-- Store oracle for the spec scenario: batches 0 and 1 succeed with two
rows reported each, later batches raise. -/
def scenarioUpsert : Nat → StoreOutcome := fun i => if i < 2 then .ok (some 2) else .fail

/-- Store oracle that always raises. -/
def failOutcome : Nat → StoreOutcome := fun _ => .fail

/-- Store oracle that always succeeds reporting one row. -/
def okOutcome : Nat → StoreOutcome := fun _ => .ok (some 1)

/-- The single combined record produced by joining the one-entry roster
`{"A1": {}}` against an empty earnings lookup for fiscal year 2020. -/
def joined0 : PyDict :=
  [("fiscal_year", .str "2020"),
   ("regular_wages", .float (.finite (mkDec 0 0))),
   ("overtime_wages", .float (.finite (mkDec 0 0))),
   ("other_wages", .float (.finite (mkDec 0 0))),
   ("total_wages", .float (.finite (mkDec 0 0)))]

/-- Every record emitted by the join carries the fiscal-year string. -/
theorem join_mem_fiscal_year (hr_data edata : List (String × PyDict)) (fy : ℤ)
    (rec : PyDict) (h : rec ∈ joinRecords hr_data edata fy) :
    dictGet rec "fiscal_year" = some (.str (toString fy)) := by
  rcases List.mem_map.mp h with ⟨p, hp, hrec⟩
  subst hrec
  dsimp only
  rw [dictGet_dictSet_ne _ _ _ _ (by decide)]
  rw [dictGet_dictSet_ne _ _ _ _ (by decide)]
  rw [dictGet_dictSet_ne _ _ _ _ (by decide)]
  rw [dictGet_dictSet_ne _ _ _ _ (by decide)]
  rw [dictGet_dictSet_self]

/-- When every fallback insert succeeds, the budgets batch loop never
aborts, whatever the upsert outcomes. -/
theorem budgets_fallback_rescues {α : Type} (up ins : Nat → StoreOutcome)
    (hins : ∀ i, ins i ≠ .fail) (records : List α) (B : Nat) :
    isOkE (import_budgets_batches records B up ins) = true := by
  have key : ∀ (l : List (Nat × List α)) (init : Nat),
      isOkE (l.foldlM (fun total ib =>
        match up ib.1 with
        | .ok d => Except.ok (total + d.getD 0)
        | .fail =>
          match ins ib.1 with
          | .ok d => Except.ok (total + d.getD ib.2.length)
          | .fail => Except.error ()) init) = true := by
    intro l
    induction l with
    | nil => intro init; rfl
    | cons ib rest ih =>
      intro init
      rw [List.foldlM_cons]
      cases hup : up ib.1 with
      | ok d => exact ih (init + d.getD 0)
      | fail =>
        cases hins2 : ins ib.1 with
        | ok d => exact ih (init + d.getD ib.2.length)
        | fail => exact absurd hins2 (hins ib.1)
  exact key ((List.range (batches records B).length).zip (batches records B)) 0

/-! ### Claim theorems -/

/-- C1 (counterexample): in the fy2025 import, the detail sequence has two
rows for Identifier "A1" with REGULAR_WAGES 100 and 200; the combined
record takes 100 — the FIRST occurrence, not the last, refuting
last-write-wins for this join. -/
theorem c1_fy2025_first_wins_counterexample :
    (fy2025_join [[("TEMPORARY_ID", .str "A1")]]
        [[("TEMPORARY_ID", .str "A1"), ("REGULAR_WAGES", .float (.finite (mkDec 100 0)))],
         [("TEMPORARY_ID", .str "A1"), ("REGULAR_WAGES", .float (.finite (mkDec 200 0)))]]
        ["TEMPORARY_ID", "REGULAR_WAGES"]).map wageOf
      = [.float (.finite (mkDec 100 0))] ∧
    Value.float (.finite (mkDec 100 0)) ≠ .float (.finite (mkDec 200 0)) := by
  decide

/-- C1 (amended): in import_payroll.py the earnings lookup is
last-write-wins — looking up a key returns the last matching detail entry —
while the fy2025 script deduplicates the detail set keeping the FIRST row
per Identifier: the surviving row for any key value is the first occurrence. -/
theorem c1_detail_lookup_policy_amended :
    (∀ (rows : List (List Value)) (headers : List String) (k : String),
        dictGet (buildEarningsData rows headers) k =
          match ((earnEntries rows headers).filter (fun e => e.1 == k)).getLast? with
          | some e => some e.2
          | Option.none => Option.none) ∧
    (∀ (rows : List PyDict) (col : String) (k : Value),
        List.find? (fun x => pyGet x col == k) (drop_duplicates_first rows col) =
          List.find? (fun x => pyGet x col == k) rows) := by
  constructor
  · intro rows headers k
    rw [buildEarningsData_eq_entries, dictGet_dictOfEntriesAux k (earnEntries rows headers) []]
    cases ((earnEntries rows headers).filter (fun e => e.1 == k)).getLast? with
    | some e => rfl
    | none => rfl
  · intro rows col k
    exact drop_duplicates_first_find? rows col k

/-- C2 (counterexample): two roster rows share Identifier "A1"; the claim
predicts two combined records, but the roster lookup is a dict keyed by
Identifier, so the join emits only one. -/
theorem c2_duplicate_roster_collapses_counterexample :
    (joinRecords (buildHRData [[.str "A1"], [.str "A1"]] ["TEMPORARY_ID"] Option.none)
        (buildEarningsData [] ["TEMPORARY_ID"]) 2020).length = 1 ∧
    rosterValidCount [[.str "A1"], [.str "A1"]] ["TEMPORARY_ID"] Option.none = 2 ∧
    (1 : Nat) ≠ 2 := by
  decide

/-- C2 (amended): the join emits exactly one combined record per DISTINCT
non-null, non-empty Identifier among the roster rows that parse; roster
rows with null/blank Identifier are excluded, and duplicate Identifiers
collapse into a single combined record. -/
theorem c2_join_cardinality_amended (rows : List (List Value)) (headers : List String)
    (active_col_name : Option String) (edata : List (String × PyDict)) (fiscal_year : ℤ) :
    (joinRecords (buildHRData rows headers active_col_name) edata fiscal_year).length =
      ((hrEntries rows headers active_col_name).map Prod.fst).toFinset.card := by
  simp only [joinRecords, List.length_map]
  rw [buildHRData_eq_entries]
  have hlen : (dictOfEntriesAux [] (hrEntries rows headers active_col_name)).length =
      (dictKeys (dictOfEntriesAux [] (hrEntries rows headers active_col_name))).length := by
    simp [dictKeys]
  have hnodup : (dictKeys (dictOfEntriesAux [] (hrEntries rows headers active_col_name))).Nodup :=
    nodup_dictKeys_dictOfEntriesAux (hrEntries rows headers active_col_name) []
      (by simp [dictKeys])
  have hset : (dictKeys (dictOfEntriesAux [] (hrEntries rows headers active_col_name))).toFinset =
      ((hrEntries rows headers active_col_name).map Prod.fst).toFinset := by
    apply Finset.ext
    intro a
    simp only [List.mem_toFinset]
    rw [mem_dictKeys_dictOfEntriesAux a (hrEntries rows headers active_col_name) []]
    simp [dictKeys]
  rw [hlen, ← List.toFinset_card_of_nodup hnodup, hset]

/-- C3 (counterexample): batch size 2, five records, batches 0 and 1
succeed, batch 2 fails both its upsert and the fallback insert; the
budgets loader re-raises, the file-level handler returns 0 — not the
claimed `succeeded=4, failed=1`. -/
theorem c3_budgets_abort_counterexample :
    import_budget_file_result [1, 2, 3, 4, 5] 0 2 scenarioUpsert failOutcome = (0, 0) ∧
    ((0, 0) : Nat × Nat) ≠ (4, 1) := by
  decide

/-- C3 (amended): on a double failure the budgets loader aborts the whole
file (reporting 0 succeeded) rather than continuing; the payroll loader —
which has no fallback insert — is the one that counts the failed batch and
continues, yielding `succeeded=4, failed=1` on the scenario; and the
budgets fallback insert does rescue any batch whose upsert call fails. -/
theorem c3_loader_failure_policy_amended :
    import_budget_file_result [1, 2, 3, 4, 5] 0 2 scenarioUpsert failOutcome = (0, 0) ∧
    import_payroll_batches [1, 2, 3, 4, 5] 2 scenarioUpsert = (4, 1) ∧
    (∀ (α : Type) (records : List α) (B : Nat) (up ins : Nat → StoreOutcome),
        (∀ i, ins i ≠ .fail) →
        isOkE (import_budgets_batches records B up ins) = true) := by
  refine ⟨by decide, by decide, ?_⟩
  intro α records B up ins hins
  exact budgets_fallback_rescues up ins hins records B

/-- C3 (witness): the fallback clause applied to a run where every upsert
fails and every insert succeeds. -/
theorem c3_loader_failure_policy_witness :
    isOkE (import_budgets_batches [1, 2, 3] 1 failOutcome okOutcome) = true :=
  c3_loader_failure_policy_amended.2.2 Nat [1, 2, 3] 1 failOutcome okOutcome
    (fun _ h => StoreOutcome.noConfusion h)

/-- C4 (counterexample): the payroll wage normalizer does not strip
thousands separators: `" 1,234.50 "` is unparsable and collapses to the
zero default instead of 1234.50. -/
theorem c4_comma_not_stripped_counterexample :
    normalize_decimal_wage (Value.str " 1,234.50 ") = .ok (.finite (mkDec 0 0)) ∧
    PyFloat.finite (mkDec 0 0) ≠ .finite (mkDec 12345 1) ∧
    (mkDec 12345 1).toRat = (1234.5 : ℚ) := by
  refine ⟨by decide, by decide, ?_⟩
  norm_num [Dec.toRat, mkDec, normDecAux]

/-- C4 (amended): the payroll wage normalizer maps null, blank,
whitespace-only, dash and every unparsable string uniformly to 0, but it
does NOT strip thousands separators — `" 1,234.50 "` yields 0.0; the
comma-stripping behavior lives in the budgets `parse_decimal`, which does
return 1234.5 on that input. -/
theorem c4_wage_normalizer_amended :
    normalize_decimal_wage Value.none = .ok (.finite (mkDec 0 0)) ∧
    normalize_decimal_wage (Value.str "") = .ok (.finite (mkDec 0 0)) ∧
    normalize_decimal_wage (Value.str "   ") = .ok (.finite (mkDec 0 0)) ∧
    normalize_decimal_wage (Value.str "-") = .ok (.finite (mkDec 0 0)) ∧
    (∀ s : String, pyFloatOfString (pyStrip s) = .error .valueError →
        normalize_decimal_wage (Value.str s) = .ok (.finite (mkDec 0 0))) ∧
    normalize_decimal_wage (Value.str " 1,234.50 ") = .ok (.finite (mkDec 0 0)) ∧
    parse_decimal " 1,234.50 " = .finite (mkDec 12345 1) := by
  refine ⟨by decide, by decide, by decide, by decide, ?_, by decide, by decide⟩
  intro s h
  simp only [normalize_decimal_wage, parse_float]
  by_cases hv : (pyStrip s == "" || pyStrip s == "-") = true
  · simp [hv, orZeroFloat]
  · simp only [hv, Bool.false_eq_true, if_neg, not_false_iff]
    rw [h]
    simp [orZeroFloat]

/-- C4 (witness): the uniform-zero clause applied to the unparsable string
"abc". -/
theorem c4_wage_normalizer_witness :
    normalize_decimal_wage (Value.str "abc") = .ok (.finite (mkDec 0 0)) :=
  c4_wage_normalizer_amended.2.2.2.2.1 "abc" (by decide)

/-- C5 (counterexample): the fy2025 inline sheet resolver compares
case-sensitively: the sheet "fy25 hr info" contains "HR INFO"
case-insensitively (and the payroll resolver finds it), yet the fy2025
resolver reports not-found. -/
theorem c5_fy2025_case_sensitive_counterexample :
    fy2025_find_sheet ["fy25 hr info"] "HR INFO" = Option.none ∧
    pyInStr (pyLower "HR INFO") (pyLower "fy25 hr info") = true ∧
    find_sheet_by_pattern ["fy25 hr info"] "HR INFO" = some "fy25 hr info" := by
  decide

/-- C5 (amended): `find_sheet_by_pattern` returns the first sheet name
containing the pattern case-insensitively (or none); the fy2025 inline
resolver returns the first sheet name containing the pattern
case-SENSITIVELY (or none). -/
theorem c5_sheet_resolver_amended :
    (∀ (sheetnames : List String) (pattern : String),
        find_sheet_by_pattern sheetnames pattern =
          (sheetnames.filter (fun n => pyInStr (pyLower pattern) (pyLower n))).head?) ∧
    (∀ (sheetnames : List String) (pattern : String),
        fy2025_find_sheet sheetnames pattern =
          (sheetnames.filter (fun n => pyInStr pattern n)).head?) :=
  ⟨fun sheetnames _ => find?_eq_head?_filter _ sheetnames,
   fun sheetnames _ => find?_eq_head?_filter _ sheetnames⟩

/-- C6: for batch size B > 0 the loader attempts exactly ceil(N/B)
batches, each a contiguous slice of at most B records, and the
concatenation of the slices in attempt order is the original sequence. -/
theorem c6_batching_complete {α : Type} (l : List α) (B : Nat) (hB : 0 < B) :
    (batches l B).length = (l.length + B - 1) / B ∧
    (∀ b ∈ batches l B, b.length ≤ B) ∧
    (batches l B).flatten = l := by
  rw [batches_eq_chunks hB l.length l le_rfl]
  exact ⟨chunks_length hB l.length l le_rfl,
         fun b hb => chunks_mem_length_le hB l.length l b le_rfl hb,
         chunks_flatten l.length l le_rfl⟩

/-- C6 (witness): the batching facts evaluated at five records with batch
size two. -/
theorem c6_batching_complete_witness :
    0 < 2 ∧
    ((batches [1, 2, 3, 4, 5] 2).length = (([1, 2, 3, 4, 5] : List Nat).length + 2 - 1) / 2 ∧
      (∀ b ∈ batches [1, 2, 3, 4, 5] 2, b.length ≤ 2) ∧
      (batches [1, 2, 3, 4, 5] 2).flatten = [1, 2, 3, 4, 5]) :=
  ⟨by decide, c6_batching_complete [1, 2, 3, 4, 5] 2 (by decide)⟩

/-- C7: the field normalizers are NOT total — `parse_integer` raises an
uncaught OverflowError on the string "inf" and on an infinite float, and
`parse_last_hire_date` raises an uncaught OverflowError on "inf" and an
uncaught ValueError on a nan float, contradicting the never-raises
contract and the functions' own docstrings. -/
theorem c7_normalizer_raises_on_inf :
    parse_integer (Value.str "inf") = .error .overflowError ∧
    parse_integer (Value.float .inf) = .error .overflowError ∧
    parse_last_hire_date (Value.str "inf") = .error .overflowError ∧
    parse_last_hire_date (Value.float .nan) = .error .valueError := by
  decide

/-- C8: every combined record, in every batch slice, carries the
fiscal-year string of its dataset — set unconditionally during the join
and untouched by batching. -/
theorem c8_fiscal_year_invariant (hr_data edata : List (String × PyDict))
    (fiscal_year : ℤ) (B : Nat) (b : List PyDict) (rec : PyDict) (hB : 0 < B)
    (hb : b ∈ batches (joinRecords hr_data edata fiscal_year) B) (hrec : rec ∈ b) :
    dictGet rec "fiscal_year" = some (.str (toString fiscal_year)) := by
  apply join_mem_fiscal_year hr_data edata fiscal_year rec
  have h1 : rec ∈ (batches (joinRecords hr_data edata fiscal_year) B).flatten :=
    List.mem_flatten.mpr ⟨b, hb, hrec⟩
  rw [batches_eq_chunks hB (joinRecords hr_data edata fiscal_year).length _ le_rfl,
      chunks_flatten (joinRecords hr_data edata fiscal_year).length _ le_rfl] at h1
  exact h1

/-- C8 (witness): the invariant evaluated on a one-record roster for
fiscal year 2020 with batch size one. -/
theorem c8_fiscal_year_invariant_witness :
    dictGet joined0 "fiscal_year" = some (Value.str "2020") :=
  c8_fiscal_year_invariant [("A1", [])] [] 2020 1 [joined0] joined0
    (by decide) (by decide) (by decide)

/-- C9: on numeric input parse_text returns null exactly when the number
is zero, and the trimmed string form of the number otherwise; in
particular the numeric value 0 becomes null, not the text "0". -/
theorem c9_parse_text_zero_null :
    (∀ n : ℤ, parse_text (Value.int n) = Option.none ↔ n = 0) ∧
    (∀ d : Dec, parse_text (Value.float (.finite d)) = Option.none ↔ d.num = 0) ∧
    parse_text (Value.int 0) = Option.none ∧
    parse_text (Value.float (.finite (mkDec 0 0))) = Option.none ∧
    parse_text (Value.int 0) ≠ some "0" ∧
    parse_text (Value.int 7) = some "7" ∧
    parse_text (Value.int (-3)) = some "-3" ∧
    parse_text (Value.float (.finite (mkDec 25 1))) = some "2.5" ∧
    parse_text (Value.float (.finite (mkDec 20200 1))) = some "2020.0" := by
  refine ⟨?_, ?_, by decide, by decide, by decide, by decide, by decide, by decide, by decide⟩
  · intro n
    by_cases h : n = 0 <;> simp [parse_text, h]
  · intro d
    by_cases h : d.num = 0 <;> simp [parse_text, pyFloatTruthy, h]

/-- C10 (counterexample): `parse_last_hire_date` on the numeric input
float("inf") does not return any truncated decimal string — it raises an
uncaught OverflowError. -/
theorem c10_inf_raises_counterexample :
    parse_last_hire_date (Value.float PyFloat.inf) = .error .overflowError ∧
    isOkE (parse_last_hire_date (Value.float PyFloat.inf)) = false := by
  decide

/-- C10 (amended): every FINITE numeric input and every string parsing as
a finite float is canonicalized to the decimal string of the value
truncated toward zero; strings that fail float parsing are returned
verbatim after trimming; the string "nan" parses as a float yet is also
returned verbatim (the ValueError from int(nan) is caught), and infinite
inputs raise. -/
theorem c10_last_hire_date_amended :
    (∀ n : ℤ, parse_last_hire_date (Value.int n) = .ok (some (toString n))) ∧
    (∀ d : Dec, parse_last_hire_date (Value.float (.finite d)) =
        .ok (some (toString (decTrunc d)))) ∧
    (∀ (s : String) (d : Dec), pyFloatOfString (pyStrip s) = .ok (.finite d) →
        parse_last_hire_date (Value.str s) = .ok (some (toString (decTrunc d)))) ∧
    (∀ s : String, pyStrip s ≠ "" → pyStrip s ≠ "-" →
        pyFloatOfString (pyStrip s) = .error .valueError →
        parse_last_hire_date (Value.str s) = .ok (some (pyStrip s))) ∧
    parse_last_hire_date (Value.float (.finite (mkDec 44000 0))) = .ok (some "44000") ∧
    parse_last_hire_date (Value.str "123.9") = .ok (some "123") ∧
    parse_last_hire_date (Value.str "nan") = .ok (some "nan") := by
  refine ⟨fun n => rfl, fun d => rfl, ?_, ?_, by decide, by decide, by decide⟩
  · intro s d h
    simp only [parse_last_hire_date]
    by_cases hv : (pyStrip s == "-" || pyStrip s == "") = true
    · exfalso
      rcases Bool.or_eq_true_iff.mp hv with hv1 | hv1
      · rw [show pyStrip s = "-" from by simpa using hv1] at h
        rw [show pyFloatOfString "-" = Except.error .valueError from by decide] at h
        exact Except.noConfusion h
      · rw [show pyStrip s = "" from by simpa using hv1] at h
        rw [show pyFloatOfString "" = Except.error .valueError from by decide] at h
        exact Except.noConfusion h
    · simp only [hv, Bool.false_eq_true, if_neg, not_false_iff]
      rw [h]
      rfl
  · intro s h1 h2 h3
    simp only [parse_last_hire_date]
    have hv : (pyStrip s == "-" || pyStrip s == "") = false := by
      simp [h1, h2]
    simp only [hv, Bool.false_eq_true, if_neg, not_false_iff]
    rw [h3]
    have hne : (pyStrip s != "") = true := by simp [h1]
    simp only [hne, if_pos]
    rfl

/-- C10 (witness): the canonicalization clause applied to "123.9". -/
theorem c10_last_hire_date_witness :
    parse_last_hire_date (Value.str "123.9") = .ok (some (toString (decTrunc (mkDec 1239 1)))) :=
  c10_last_hire_date_amended.2.2.1 "123.9" (mkDec 1239 1) (by decide)

end PayrollPipeline
